import Mathlib

/-!
Verification of the configuration-resolution and skill-governance core of the
`agent-base` repository, against its natural-language specification.

The Python sources under `src/agent/cli/skill_commands.py` and
`src/agent/config.py` are embedded shallowly below.  Components of the
repository whose source files are not present (the `agent.skills` package:
`security.normalize_skill_name`, `SkillManager`; and the `agent.config`
package: `schema`, `manager` with `load_config` and `save_config`, and
`AgentConfig.from_combined`) are modelled from the specification, and each
such definition is marked `Modelled from the spec:` in its doc comment.
-/

set_option maxHeartbeats 1000000

namespace AgentBase

/-! ## Name canonicalization -/

/-- A character that the canonicalizer collapses into the hyphen separator:
whitespace, underscores and hyphens themselves. -/
def isSepChar (c : Char) : Bool :=
  c == ' ' || c == '\t' || c == '\n' || c == '\r' || c == '_' || c == '-'

/-- Collapse consecutive hyphens to a single hyphen (right-to-left squeeze). -/
def squeezeHyphens : List Char → List Char
  | [] => []
  | c :: rest =>
    let tail := squeezeHyphens rest
    if c == '-' then
      match tail with
      | '-' :: t => '-' :: t
      | t => '-' :: t
    else c :: tail

/-- Modelled from the spec: `agent.skills.security.normalize_skill_name` is not
among the provided sources.  Per spec section 4.1 canonicalization lowercases,
collapses whitespace and underscores to a single hyphen separator, strips
characters unsafe for a path segment, trims separators at the ends, and bounds
the length. -/
def normalize_skill_name (raw : String) : String :=
  let mapped := raw.data.filterMap (fun c0 =>
    let c := c0.toLower
    if isSepChar c then some '-'
    else if c.isLower || c.isDigit then some c
    else none)
  let squeezed := squeezeHyphens mapped
  let front := squeezed.dropWhile (fun c => c == '-')
  let trimmed := (front.reverse.dropWhile (fun c => c == '-')).reverse
  String.mk (trimmed.take 64)

/-! ## Persisted plugin entries (`agent.config.schema.PluginSkillSource`)

The schema module is not among the provided sources; the record shape is
taken from the fields the CLI code reads and writes
(`name`, `git_url`, `branch`, `enabled`, `installed_path`). -/

structure PluginSkillSource where
  name : String
  git_url : String
  branch : String
  enabled : Bool
  installed_path : String
deriving DecidableEq, Repr

/-- The canonical identity of a persisted plugin entry, exactly as the CLI
computes it: `normalize_skill_name(p.name)`. -/
def canonKey (p : PluginSkillSource) : String :=
  normalize_skill_name p.name

/-- The lookup `next((p for p in settings.skills.plugins if
normalize_skill_name(p.name) == canonical_name), None)` from
`skill_commands.py`. -/
def findPlugin (canonical : String) (plugins : List PluginSkillSource) :
    Option PluginSkillSource :=
  plugins.find? (fun p => canonKey p == canonical)

/-! ## The config-side effect of `install_skill` (`skill_commands.py` 154-183)

For each installed entry, the CLI looks for an existing plugin whose
canonicalized name equals the entry's canonical name.  If found, that first
matching entry is mutated in place (`git_url`, `branch`, `installed_path`,
`enabled = True`); otherwise a fresh `PluginSkillSource` named by the
canonical name, with `enabled = True`, is appended. -/

/-- One iteration of the `for entry in installed_entries` loop of
`install_skill`: update the first plugin whose canonical key matches, else
append a new enabled entry. -/
def install_skill_config_step (gitUrl branch canonical path : String) :
    List PluginSkillSource → List PluginSkillSource
  | [] => [⟨canonical, gitUrl, branch, true, path⟩]
  | p :: rest =>
    if canonKey p = canonical then
      { p with git_url := gitUrl, branch := branch,
               installed_path := path, enabled := true } :: rest
    else p :: install_skill_config_step gitUrl branch canonical path rest

/-- A discovered unit as returned by `SkillManager.install`: raw name,
canonical name, and the managed path it was cloned to. -/
structure InstalledEntry where
  name : String
  name_canonical : String
  installed_path : String
deriving DecidableEq, Repr

/-- The whole config-side loop of `install_skill` over the entries returned
by `SkillManager.install`. -/
def install_skill_config (gitUrl branch : String) (entries : List InstalledEntry)
    (plugins : List PluginSkillSource) : List PluginSkillSource :=
  entries.foldl
    (fun acc e => install_skill_config_step gitUrl branch e.name_canonical e.installed_path acc)
    plugins

/-! ## Settings document (skills section) and the world the CLI acts on -/

/-- The `skills` table of the persisted settings document
(`agent.config.schema.SkillsConfig`; shape taken from the fields the CLI
reads: `bundled_dir`, `disabled_bundled`, `plugins`). -/
structure SkillsConfig where
  bundled_dir : Option String
  disabled_bundled : List String
  plugins : List PluginSkillSource
deriving DecidableEq, Repr

/-- The state a skill command acts on: the persisted skills settings (the CLI
loads them with `load_config` at entry and persists with `save_config`), plus
the set of managed on-disk plugin directories, identified by canonical name. -/
structure SkillWorld where
  skills : SkillsConfig
  managedDirs : List String
deriving DecidableEq, Repr

/-- Outcome of a skill CLI command. -/
inductive SkillCmdResult where
  | ok
  | cancelled
  | skillNotFound
deriving DecidableEq, Repr

/-- Modelled from the spec: `SkillManager.update` (`agent.skills.manager` is
not among the provided sources) pulls the latest commit on the recorded branch
into the existing managed location and returns that path; the set of managed
directories is unchanged. -/
def managerUpdate (canonical : String) (w : SkillWorld) : SkillWorld × String :=
  (w, canonical)

/-- Modelled from the spec: `SkillManager.remove` (`agent.skills.manager` is
not among the provided sources) deletes the managed on-disk copy of the named
plugin. -/
def managerRemove (canonical : String) (w : SkillWorld) : SkillWorld :=
  { w with managedDirs := w.managedDirs.filter (fun d => d != canonical) }

/-- Embedding of `update_skill` from `skill_commands.py` 195-228: canonicalize the
requested name, look it up in the persisted plugin list, fail with the
skill-not-found error when absent, otherwise delegate to
`SkillManager.update`. -/
def update_skill (name : String) (w : SkillWorld) :
    SkillWorld × SkillCmdResult × Option String :=
  let canonical := normalize_skill_name name
  match findPlugin canonical w.skills.plugins with
  | none => (w, .skillNotFound, none)
  | some _ =>
    let (w2, path) := managerUpdate canonical w
    (w2, .ok, some path)

/-- Embedding of `remove_skill` from `skill_commands.py` 231-274: canonicalize, look up,
fail when absent; ask for confirmation (`confirmed` models the interactive
`Confirm.ask`); unless `keep_files`, delete the managed copy via
`SkillManager.remove`; drop every plugin with the canonical name from the
persisted list and save. -/
def remove_skill (name : String) (keep_files confirmed : Bool) (w : SkillWorld) :
    SkillWorld × SkillCmdResult :=
  let canonical := normalize_skill_name name
  match findPlugin canonical w.skills.plugins with
  | none => (w, .skillNotFound)
  | some _ =>
    if !confirmed then (w, .cancelled)
    else
      let w1 := if keep_files then w else managerRemove canonical w
      let newPlugins := w1.skills.plugins.filter (fun p => canonKey p != canonical)
      ({ w1 with skills := { w1.skills with plugins := newPlugins } }, .ok)

/-- Set the `enabled` flag of the first plugin whose canonical key matches
(the Python mutates the object produced by `next(...)`). -/
def setEnabledFirst (canonical : String) (b : Bool) :
    List PluginSkillSource → List PluginSkillSource
  | [] => []
  | p :: rest =>
    if canonKey p = canonical then { p with enabled := b } :: rest
    else p :: setEnabledFirst canonical b rest

/-- Embedding of `enable_skill` from `skill_commands.py` 277-323: a matching plugin gets
`enabled = True` (no-op when already enabled); otherwise the canonical name is
filtered out of `disabled_bundled` when present there. -/
def enable_skill (name : String) (w : SkillWorld) : SkillWorld :=
  let canonical := normalize_skill_name name
  match findPlugin canonical w.skills.plugins with
  | some p =>
    if p.enabled then w
    else { w with skills :=
      { w.skills with plugins := setEnabledFirst canonical true w.skills.plugins } }
  | none =>
    if (w.skills.disabled_bundled.map normalize_skill_name).contains canonical then
      { w with skills := { w.skills with disabled_bundled :=
          w.skills.disabled_bundled.filter (fun s => normalize_skill_name s != canonical) } }
    else w

/-- Embedding of `disable_skill` from `skill_commands.py` 326-367: a matching plugin gets
`enabled = False` (no-op when already disabled); otherwise the canonical name
is appended to `disabled_bundled` unless already present there — the bundled
skill set is never consulted. -/
def disable_skill (name : String) (w : SkillWorld) : SkillWorld :=
  let canonical := normalize_skill_name name
  match findPlugin canonical w.skills.plugins with
  | some p =>
    if !p.enabled then w
    else { w with skills :=
      { w.skills with plugins := setEnabledFirst canonical false w.skills.plugins } }
  | none =>
    if !(w.skills.disabled_bundled.map normalize_skill_name).contains canonical then
      { w with skills := { w.skills with disabled_bundled :=
          w.skills.disabled_bundled ++ [canonical] } }
    else w

/-! ## The bundled-directory logic of `list_skills` (`skill_commands.py` 41-58)

The disk is modelled as a partial map from a directory path to the list of
skill names a scan of that directory discovers; `none` means the path does not
exist. -/

/-- The resolution `bundled_dir = settings.skills.bundled_dir; if None:
auto-detect`. The
configured path, when non-null, is used verbatim — even when it does not
exist on disk. -/
def bundledDirOf (configured : Option String) (autoDir : String) : String :=
  configured.getD autoDir

/-- The scan `if bundled_path.exists():
loader.scan_skill_directory(bundled_path)` else the empty list. -/
def scanBundled (disk : String → Option (List String)) (dir : String) : List String :=
  (disk dir).getD []

/-- The bundled-skill portion of `list_skills`: resolve the directory, then
scan it when it exists. -/
def list_skills_bundled (disk : String → Option (List String))
    (configured : Option String) (autoDir : String) : List String :=
  scanBundled disk (bundledDirOf configured autoDir)

/-! ## `AgentConfig` and `AgentConfig.from_env` (`src/agent/config.py`)

The process environment is modelled as a partial map from variable name to
value; `os.getenv(k, d)` is `(env k).getD d` and `os.getenv(k)` is `env k`.
`Path.home()` is passed in as `home`; `load_dotenv` merging is absorbed into
`env`. -/

structure AgentConfig where
  llm_provider : String
  openai_api_key : Option String := none
  openai_model : String := "gpt-5-mini"
  anthropic_api_key : Option String := none
  anthropic_model : String := "claude-sonnet-4-5-20250929"
  azure_project_endpoint : Option String := none
  azure_model_deployment : Option String := none
  agent_data_dir : Option String := none
  agent_session_dir : Option String := none
deriving DecidableEq, Repr

/-- Embedding of `AgentConfig.from_env` from `src/agent/config.py` 40-75: every field is
read from the environment, with `llm_provider` defaulting to the string
`"openai"` when `LLM_PROVIDER` is unset. -/
def AgentConfig.from_env (env : String → Option String) (home : String) : AgentConfig :=
  let data_dir := (env "AGENT_DATA_DIR").getD (home ++ "/.agent")
  { llm_provider := (env "LLM_PROVIDER").getD "openai"
    openai_api_key := env "OPENAI_API_KEY"
    openai_model := (env "OPENAI_MODEL").getD "gpt-5-mini"
    anthropic_api_key := env "ANTHROPIC_API_KEY"
    anthropic_model := (env "ANTHROPIC_MODEL").getD "claude-sonnet-4-5-20250929"
    azure_project_endpoint := env "AZURE_PROJECT_ENDPOINT"
    azure_model_deployment := env "AZURE_MODEL_DEPLOYMENT"
    agent_data_dir := some data_dir
    agent_session_dir := some (data_dir ++ "/sessions") }

/-- The provider tags accepted by `AgentConfig.validate`
(`src/agent/config.py` 77-114). -/
def supportedProviders : List String :=
  ["openai", "anthropic", "azure_ai_foundry"]

/-! ## The persisted settings document and ConfigStore

`agent.config.schema` and `agent.config.manager` (`load_config`,
`save_config`, `get_default_config`) are not among the provided sources.  The
document shape below is modelled from the spec's data model (provider table
with per-provider `enabled` flag and credential/model fields, skills table,
telemetry table, memory table) and from the fields the provided tests and CLI
code access.  The on-disk JSON text is modelled as a structured JSON value;
`save_config` is the encoding of the document into that value and
`load_config` (of an existing file) is the decoding.  Forward compatibility
is modelled by the `extra` association list of unknown top-level fields,
which save must preserve. -/

inductive Json where
  | null : Json
  | bool : Bool → Json
  | num : Int → Json
  | str : String → Json
  | arr : List Json → Json
  | obj : List (String × Json) → Json
deriving Repr

structure ProviderEntry where
  enabled : Bool
  api_key : Option String
  model : Option String
deriving DecidableEq, Repr

structure ProvidersConfig where
  enabled : List String
  openai : ProviderEntry
  anthropic : ProviderEntry
deriving DecidableEq, Repr

structure TelemetryConfig where
  enabled : Bool
  otlp_endpoint : Option String
deriving DecidableEq, Repr

structure MemoryConfig where
  mtype : String
  history_limit : Option Nat
deriving DecidableEq, Repr

structure PersistedSettings where
  version : String
  providers : ProvidersConfig
  skills : SkillsConfig
  telemetry : TelemetryConfig
  memory : MemoryConfig
  extra : List (String × Json)
deriving Repr

/-- Modelled from the spec: `get_default_config` returns compiled-in defaults
with zero enabled providers — the `enabled` list is empty and every
per-provider `enabled` flag is off. -/
def get_default_config : PersistedSettings :=
  { version := "1.0"
    providers :=
      { enabled := []
        openai := { enabled := false, api_key := none, model := none }
        anthropic := { enabled := false, api_key := none, model := none } }
    skills := { bundled_dir := none, disabled_bundled := [], plugins := [] }
    telemetry := { enabled := false, otlp_endpoint := none }
    memory := { mtype := "none", history_limit := none }
    extra := [] }

/-! ### Encoding (save_config) -/

def encOptStr : Option String → Json
  | none => .null
  | some s => .str s

def encOptNat : Option Nat → Json
  | none => .null
  | some n => .num (Int.ofNat n)

def encProviderEntry (p : ProviderEntry) : Json :=
  .obj [("enabled", .bool p.enabled), ("api_key", encOptStr p.api_key),
        ("model", encOptStr p.model)]

def encProviders (p : ProvidersConfig) : Json :=
  .obj [("enabled", .arr (p.enabled.map Json.str)),
        ("openai", encProviderEntry p.openai),
        ("anthropic", encProviderEntry p.anthropic)]

def encPlugin (p : PluginSkillSource) : Json :=
  .obj [("name", .str p.name), ("git_url", .str p.git_url),
        ("branch", .str p.branch), ("enabled", .bool p.enabled),
        ("installed_path", .str p.installed_path)]

def encSkills (s : SkillsConfig) : Json :=
  .obj [("bundled_dir", encOptStr s.bundled_dir),
        ("disabled_bundled", .arr (s.disabled_bundled.map Json.str)),
        ("plugins", .arr (s.plugins.map encPlugin))]

def encTelemetry (t : TelemetryConfig) : Json :=
  .obj [("enabled", .bool t.enabled), ("otlp_endpoint", encOptStr t.otlp_endpoint)]

def encMemory (m : MemoryConfig) : Json :=
  .obj [("type", .str m.mtype), ("history_limit", encOptNat m.history_limit)]

/-- The five recognized top-level keys of the settings document. -/
def knownKeys : List String :=
  ["version", "providers", "skills", "telemetry", "memory"]

/-- Modelled from the spec: `save_config` writes the whole document; known
fields are written under their schema keys, and unknown fields carried in
`extra` are written back unchanged (forward compatibility). -/
def save_config (s : PersistedSettings) : Json :=
  .obj ([("version", .str s.version),
         ("providers", encProviders s.providers),
         ("skills", encSkills s.skills),
         ("telemetry", encTelemetry s.telemetry),
         ("memory", encMemory s.memory)] ++ s.extra)

/-! ### Decoding (load_config) -/

def lookupKey (k : String) : List (String × Json) → Option Json
  | [] => none
  | kv :: rest => if kv.1 = k then some kv.2 else lookupKey k rest

def decStr : Json → Option String
  | .str s => some s
  | _ => none

def decBool : Json → Option Bool
  | .bool b => some b
  | _ => none

def decOptStr : Json → Option (Option String)
  | .null => some none
  | .str s => some (some s)
  | _ => none

def decOptNat : Json → Option (Option Nat)
  | .null => some none
  | .num (.ofNat n) => some (some n)
  | _ => none

def decStrList : Json → Option (List String)
  | .arr xs => xs.mapM decStr
  | _ => none

def decProviderEntry (j : Json) : Option ProviderEntry :=
  match j with
  | .obj fs => do
    let e ← lookupKey "enabled" fs >>= decBool
    let k ← lookupKey "api_key" fs >>= decOptStr
    let m ← lookupKey "model" fs >>= decOptStr
    pure { enabled := e, api_key := k, model := m }
  | _ => none

def decProviders (j : Json) : Option ProvidersConfig :=
  match j with
  | .obj fs => do
    let e ← lookupKey "enabled" fs >>= decStrList
    let o ← lookupKey "openai" fs >>= decProviderEntry
    let a ← lookupKey "anthropic" fs >>= decProviderEntry
    pure { enabled := e, openai := o, anthropic := a }
  | _ => none

def decPlugin (j : Json) : Option PluginSkillSource :=
  match j with
  | .obj fs => do
    let n ← lookupKey "name" fs >>= decStr
    let g ← lookupKey "git_url" fs >>= decStr
    let b ← lookupKey "branch" fs >>= decStr
    let e ← lookupKey "enabled" fs >>= decBool
    let p ← lookupKey "installed_path" fs >>= decStr
    pure { name := n, git_url := g, branch := b, enabled := e, installed_path := p }
  | _ => none

def decSkills (j : Json) : Option SkillsConfig :=
  match j with
  | .obj fs => do
    let b ← lookupKey "bundled_dir" fs >>= decOptStr
    let d ← lookupKey "disabled_bundled" fs >>= decStrList
    let p ← match lookupKey "plugins" fs with
            | some (.arr xs) => xs.mapM decPlugin
            | _ => none
    pure { bundled_dir := b, disabled_bundled := d, plugins := p }
  | _ => none

def decTelemetry (j : Json) : Option TelemetryConfig :=
  match j with
  | .obj fs => do
    let e ← lookupKey "enabled" fs >>= decBool
    let o ← lookupKey "otlp_endpoint" fs >>= decOptStr
    pure { enabled := e, otlp_endpoint := o }
  | _ => none

def decMemory (j : Json) : Option MemoryConfig :=
  match j with
  | .obj fs => do
    let t ← lookupKey "type" fs >>= decStr
    let h ← lookupKey "history_limit" fs >>= decOptNat
    pure { mtype := t, history_limit := h }
  | _ => none

/-- Modelled from the spec: `load_config` of an existing settings file parses
the document; recognized fields populate the schema and all unrecognized
top-level fields are retained in `extra` (forward compatibility: unknown
fields are preserved, not dropped). -/
def load_config (j : Json) : Option PersistedSettings :=
  match j with
  | .obj fs => do
    let v ← lookupKey "version" fs >>= decStr
    let pr ← lookupKey "providers" fs >>= decProviders
    let sk ← lookupKey "skills" fs >>= decSkills
    let tl ← lookupKey "telemetry" fs >>= decTelemetry
    let mem ← lookupKey "memory" fs >>= decMemory
    pure { version := v, providers := pr, skills := sk, telemetry := tl,
           memory := mem,
           extra := fs.filter (fun kv => !(knownKeys.contains kv.1)) }
  | _ => none

/-! ## Layered resolution (`AgentConfig.from_combined` / ConfigResolver) -/

/-- CLI overrides applied at the call site as the final override layer. -/
structure CliOverrides where
  llm_provider : Option String := none
  openai_api_key : Option String := none
  enable_otel : Option Bool := none
  memory_history_limit : Option Nat := none
deriving DecidableEq, Repr

/-- The resolved, immutable settings snapshot for one run (the fields of the
effective configuration exercised by the provided integration tests). -/
structure ResolvedConfig where
  llm_provider : String
  openai_api_key : Option String
  enable_otel : Bool
  memory_history_limit : Nat
  config_source : String
deriving DecidableEq, Repr

/-- Modelled from the spec: the compiled default for the memory history
limit (the resolver's last fallback layer for that field). -/
def defaultMemoryHistoryLimit : Nat := 20

/-- Modelled from the spec: `AgentConfig.from_combined` /
`ConfigResolver.resolve` are not among the provided sources.  Resolution
order per field, highest precedence first: explicit CLI argument, value
present in the loaded file, matching environment variable, compiled default.
`file = none` models a missing settings file; a `none`-valued optional field
of a present file is absent and falls through to the environment.  The
selected provider is the first entry of the file's enabled-providers list.
The environment spells booleans as the string `"true"` and numbers in
decimal. -/
def AgentConfig.from_combined (cli : CliOverrides) (file : Option PersistedSettings)
    (env : String → Option String) : ResolvedConfig :=
  { llm_provider :=
      cli.llm_provider.getD
        ((file.bind (fun s => s.providers.enabled.head?)).getD
          ((env "LLM_PROVIDER").getD "openai"))
    openai_api_key :=
      cli.openai_api_key.or
        ((file.bind (fun s => s.providers.openai.api_key)).or (env "OPENAI_API_KEY"))
    enable_otel :=
      cli.enable_otel.getD
        ((file.map (fun s => s.telemetry.enabled)).getD
          (((env "ENABLE_OTEL").getD "") == "true"))
    memory_history_limit :=
      cli.memory_history_limit.getD
        ((file.bind (fun s => s.memory.history_limit)).getD
          (((env "MEMORY_HISTORY_LIMIT").bind String.toNat?).getD
            defaultMemoryHistoryLimit))
    config_source := "combined" }

/-! ## Lemmas about the install loop -/

theorem step_mem_keys (g b c path : String) (l : List PluginSkillSource) :
    ∀ q ∈ install_skill_config_step g b c path l,
      canonKey q ∈ l.map canonKey ∨ canonKey q = normalize_skill_name c := by
  induction l with
  | nil =>
    intro q hq
    simp only [install_skill_config_step, List.mem_singleton] at hq
    subst hq
    right
    rfl
  | cons p rest ih =>
    intro q hq
    by_cases hc : canonKey p = c
    · rw [install_skill_config_step, if_pos hc] at hq
      rcases List.mem_cons.mp hq with h | h
      · left
        have hm : canonKey q = canonKey p := by rw [h]; rfl
        rw [hm]
        exact List.mem_map_of_mem canonKey (List.mem_cons_self p rest)
      · left
        exact List.mem_map_of_mem canonKey (List.mem_cons_of_mem p h)
    · rw [install_skill_config_step, if_neg hc] at hq
      rcases List.mem_cons.mp hq with h | h
      · left
        rw [h]
        exact List.mem_map_of_mem canonKey (List.mem_cons_self p rest)
      · rcases ih q h with h2 | h2
        · left
          simp only [List.map_cons]
          exact List.mem_cons_of_mem _ h2
        · right
          exact h2

theorem step_length_of_mem (g b c path : String) (l : List PluginSkillSource)
    (h : ∃ p ∈ l, canonKey p = c) :
    (install_skill_config_step g b c path l).length = l.length := by
  induction l with
  | nil => rcases h with ⟨p, hp, _⟩; cases hp
  | cons p rest ih =>
    by_cases hc : canonKey p = c
    · rw [install_skill_config_step, if_pos hc]
      simp
    · rw [install_skill_config_step, if_neg hc]
      rcases h with ⟨q, hq, hqc⟩
      rcases List.mem_cons.mp hq with h1 | h1
      · subst h1; exact absurd hqc hc
      · simp only [List.length_cons]
        rw [ih ⟨q, h1, hqc⟩]

theorem step_append_of_not_mem (g b c path : String) (l : List PluginSkillSource)
    (h : ∀ p ∈ l, canonKey p ≠ c) :
    install_skill_config_step g b c path l = l ++ [⟨c, g, b, true, path⟩] := by
  induction l with
  | nil => rfl
  | cons p rest ih =>
    rw [install_skill_config_step, if_neg (h p (List.mem_cons_self p rest))]
    rw [ih (fun q hq => h q (List.mem_cons_of_mem p hq))]
    rfl

theorem step_nodup (g b c path : String) (l : List PluginSkillSource)
    (hn : (l.map canonKey).Nodup) (hfix : normalize_skill_name c = c) :
    ((install_skill_config_step g b c path l).map canonKey).Nodup := by
  induction l with
  | nil =>
    simp [install_skill_config_step]
  | cons p rest ih =>
    rcases List.nodup_cons.mp hn with ⟨hnp, hnr⟩
    by_cases hc : canonKey p = c
    · rw [install_skill_config_step, if_pos hc]
      have : canonKey { p with git_url := g, branch := b,
                               installed_path := path, enabled := true } = canonKey p := rfl
      simp only [List.map_cons, this]
      exact List.nodup_cons.mpr ⟨hnp, hnr⟩
    · rw [install_skill_config_step, if_neg hc]
      simp only [List.map_cons]
      refine List.nodup_cons.mpr ⟨?_, ih hnr⟩
      intro hmem
      rcases List.mem_map.mp hmem with ⟨q, hq, hqc⟩
      rcases step_mem_keys g b c path rest q hq with h2 | h2
      · rw [hqc] at h2
        exact hnp h2
      · rw [hfix] at h2
        rw [hqc] at h2
        exact hc h2

theorem install_config_nodup (g b : String) (entries : List InstalledEntry)
    (plugins : List PluginSkillSource)
    (hn : (plugins.map canonKey).Nodup)
    (hfix : ∀ e ∈ entries, normalize_skill_name e.name_canonical = e.name_canonical) :
    ((install_skill_config g b entries plugins).map canonKey).Nodup := by
  induction entries generalizing plugins with
  | nil => exact hn
  | cons e rest ih =>
    rw [install_skill_config]
    simp only [List.foldl_cons]
    exact ih _
      (step_nodup g b e.name_canonical e.installed_path plugins hn
        (hfix e (List.mem_cons_self e rest)))
      (fun e2 he2 => hfix e2 (List.mem_cons_of_mem e he2))

/-! ## Lemmas for the save/load round trip -/

theorem decOptStr_enc (o : Option String) : decOptStr (encOptStr o) = some o := by
  cases o <;> rfl

theorem decOptNat_enc (o : Option Nat) : decOptNat (encOptNat o) = some o := by
  cases o <;> rfl

theorem decStrList_enc (l : List String) :
    decStrList (.arr (l.map Json.str)) = some l := by
  show (l.map Json.str).mapM decStr = some l
  induction l with
  | nil => rfl
  | cons s rest ih =>
    rw [List.map_cons, List.mapM_cons, ih]
    rfl

theorem decProviderEntry_enc (p : ProviderEntry) :
    decProviderEntry (encProviderEntry p) = some p := by
  obtain ⟨e, k, m⟩ := p
  cases k <;> cases m <;> rfl

theorem decProviders_enc (p : ProvidersConfig) :
    decProviders (encProviders p) = some p := by
  obtain ⟨e, o, a⟩ := p
  show (do
    let e2 ← decStrList (.arr (e.map Json.str))
    let o2 ← decProviderEntry (encProviderEntry o)
    let a2 ← decProviderEntry (encProviderEntry a)
    pure (ProvidersConfig.mk e2 o2 a2)) = some (ProvidersConfig.mk e o a)
  rw [decStrList_enc, decProviderEntry_enc, decProviderEntry_enc]
  rfl

theorem decPlugin_enc (p : PluginSkillSource) :
    decPlugin (encPlugin p) = some p := by
  obtain ⟨n, g, b, e, ip⟩ := p
  rfl

theorem decPluginList_enc (l : List PluginSkillSource) :
    (l.map encPlugin).mapM decPlugin = some l := by
  induction l with
  | nil => rfl
  | cons p rest ih =>
    rw [List.map_cons, List.mapM_cons, decPlugin_enc, ih]
    rfl

theorem decSkills_enc (s : SkillsConfig) :
    decSkills (encSkills s) = some s := by
  obtain ⟨b, d, p⟩ := s
  show (do
    let b2 ← decOptStr (encOptStr b)
    let d2 ← decStrList (.arr (d.map Json.str))
    let p2 ← (p.map encPlugin).mapM decPlugin
    pure (SkillsConfig.mk b2 d2 p2)) = some (SkillsConfig.mk b d p)
  rw [decOptStr_enc, decStrList_enc, decPluginList_enc]
  rfl

theorem decTelemetry_enc (t : TelemetryConfig) :
    decTelemetry (encTelemetry t) = some t := by
  obtain ⟨e, o⟩ := t
  cases o <;> rfl

theorem decMemory_enc (m : MemoryConfig) :
    decMemory (encMemory m) = some m := by
  obtain ⟨t, h⟩ := m
  cases h <;> rfl

theorem lookupKey_cons_eq (k : String) (v : Json) (rest : List (String × Json)) :
    lookupKey k ((k, v) :: rest) = some v := by
  simp [lookupKey]

theorem lookupKey_cons_ne (k k2 : String) (v : Json) (rest : List (String × Json))
    (h : k2 ≠ k) : lookupKey k ((k2, v) :: rest) = lookupKey k rest := by
  simp [lookupKey, h]

/-! ## Claims -/

/-- Example file layer for the precedence witness: `openai` enabled with
`api_key = "file-key"` set in the file. -/
def c1FileSettings : PersistedSettings :=
  { version := "1.0"
    providers :=
      { enabled := ["openai"]
        openai := { enabled := true, api_key := some "file-key", model := none }
        anthropic := { enabled := false, api_key := none, model := none } }
    skills := { bundled_dir := none, disabled_bundled := [], plugins := [] }
    telemetry := { enabled := false, otlp_endpoint := none }
    memory := { mtype := "none", history_limit := none }
    extra := [] }

/-- C1: for every configuration field set in both the settings file and the
environment, resolution (`AgentConfig.from_combined`) yields the file value; a
field that is null/unset in the file falls back to the environment value; a
field absent in both falls back to the compiled default; and a CLI override,
when present, dominates all three layers.  Stated for each resolved field of
the model (`openai_api_key`, `enable_otel`, `memory_history_limit`). -/
theorem spec_C1_precedence (cli : CliOverrides) (fo : Option PersistedSettings)
    (env : String → Option String) :
    (∀ v, cli.openai_api_key = some v →
      (AgentConfig.from_combined cli fo env).openai_api_key = some v)
    ∧ (∀ b, cli.enable_otel = some b →
      (AgentConfig.from_combined cli fo env).enable_otel = b)
    ∧ (∀ n, cli.memory_history_limit = some n →
      (AgentConfig.from_combined cli fo env).memory_history_limit = n)
    ∧ (∀ s v, cli.openai_api_key = none → fo = some s →
      s.providers.openai.api_key = some v →
      (AgentConfig.from_combined cli fo env).openai_api_key = some v)
    ∧ (∀ s, cli.enable_otel = none → fo = some s →
      (AgentConfig.from_combined cli fo env).enable_otel = s.telemetry.enabled)
    ∧ (∀ s n, cli.memory_history_limit = none → fo = some s →
      s.memory.history_limit = some n →
      (AgentConfig.from_combined cli fo env).memory_history_limit = n)
    ∧ (∀ s v, cli.openai_api_key = none → fo = some s →
      s.providers.openai.api_key = none → env "OPENAI_API_KEY" = some v →
      (AgentConfig.from_combined cli fo env).openai_api_key = some v)
    ∧ (∀ s n e2, cli.memory_history_limit = none → fo = some s →
      s.memory.history_limit = none → env "MEMORY_HISTORY_LIMIT" = some e2 →
      e2.toNat? = some n →
      (AgentConfig.from_combined cli fo env).memory_history_limit = n)
    ∧ (cli.openai_api_key = none → fo = none → env "OPENAI_API_KEY" = none →
      (AgentConfig.from_combined cli fo env).openai_api_key = none)
    ∧ (cli.enable_otel = none → fo = none → env "ENABLE_OTEL" = none →
      (AgentConfig.from_combined cli fo env).enable_otel = false)
    ∧ (cli.memory_history_limit = none → fo = none →
      env "MEMORY_HISTORY_LIMIT" = none →
      (AgentConfig.from_combined cli fo env).memory_history_limit
        = defaultMemoryHistoryLimit) := by
  refine ⟨?_, ?_, ?_, ?_, ?_, ?_, ?_, ?_, ?_, ?_, ?_⟩
  · intro v h
    simp [AgentConfig.from_combined, h]
  · intro b h
    simp [AgentConfig.from_combined, h]
  · intro n h
    simp [AgentConfig.from_combined, h]
  · intro s v h1 h2 h3
    subst h2
    simp [AgentConfig.from_combined, h1, h3]
  · intro s h1 h2
    subst h2
    simp [AgentConfig.from_combined, h1]
  · intro s n h1 h2 h3
    subst h2
    simp [AgentConfig.from_combined, h1, h3]
  · intro s v h1 h2 h3 h4
    subst h2
    simp [AgentConfig.from_combined, h1, h3, h4]
  · intro s n e2 h1 h2 h3 h4 h5
    subst h2
    simp [AgentConfig.from_combined, h1, h3, h4, h5]
  · intro h1 h2 h3
    subst h2
    simp [AgentConfig.from_combined, h1, h3]
  · intro h1 h2 h3
    subst h2
    simp [AgentConfig.from_combined, h1, h3]
  · intro h1 h2 h3
    subst h2
    simp [AgentConfig.from_combined, h1, h3]

/-- Witness for C1, mirroring the spec's example: the file sets
`openai.api_key = "file-key"` while the environment sets
`OPENAI_API_KEY = "env-key"`; the resolved key is the file's. -/
theorem spec_C1_precedence_witness :
    c1FileSettings.providers.openai.api_key = some "file-key"
    ∧ (fun k => if k = "OPENAI_API_KEY" then some "env-key" else none) "OPENAI_API_KEY"
        = some "env-key"
    ∧ (AgentConfig.from_combined {} (some c1FileSettings)
        (fun k => if k = "OPENAI_API_KEY" then some "env-key" else none)).openai_api_key
        = some "file-key" :=
  ⟨rfl, rfl,
   (spec_C1_precedence {} (some c1FileSettings)
      (fun k => if k = "OPENAI_API_KEY" then some "env-key" else none)).2.2.2.1
     c1FileSettings "file-key" rfl rfl rfl⟩

/-- C2: loading right after saving returns the document that was saved,
including unknown top-level fields that are not part of the schema, provided
the unknown fields do not reuse a recognized schema key. -/
theorem spec_C2_roundtrip (s : PersistedSettings)
    (hextra : ∀ kv ∈ s.extra, knownKeys.contains kv.1 = false) :
    load_config (save_config s) = some s := by
  obtain ⟨v, pr, sk, tl, mem, extra⟩ := s
  simp only [save_config, load_config, List.cons_append, List.nil_append]
  rw [lookupKey_cons_eq]
  rw [lookupKey_cons_ne _ _ _ _ (by decide), lookupKey_cons_eq]
  rw [lookupKey_cons_ne _ _ _ _ (by decide), lookupKey_cons_ne _ _ _ _ (by decide),
      lookupKey_cons_eq]
  rw [lookupKey_cons_ne _ _ _ _ (by decide), lookupKey_cons_ne _ _ _ _ (by decide),
      lookupKey_cons_ne _ _ _ _ (by decide), lookupKey_cons_eq]
  rw [lookupKey_cons_ne _ _ _ _ (by decide), lookupKey_cons_ne _ _ _ _ (by decide),
      lookupKey_cons_ne _ _ _ _ (by decide), lookupKey_cons_ne _ _ _ _ (by decide),
      lookupKey_cons_eq]
  have hfe : List.filter (fun kv => !knownKeys.contains kv.1) extra = extra :=
    List.filter_eq_self.mpr (fun a ha => by rw [hextra a ha]; rfl)
  show (do
    let v2 ← decStr (.str v)
    let pr2 ← decProviders (encProviders pr)
    let sk2 ← decSkills (encSkills sk)
    let tl2 ← decTelemetry (encTelemetry tl)
    let mem2 ← decMemory (encMemory mem)
    pure (PersistedSettings.mk v2 pr2 sk2 tl2 mem2
      (List.filter (fun kv => !knownKeys.contains kv.1) extra))) = some _
  rw [decProviders_enc, decSkills_enc, decTelemetry_enc, decMemory_enc, hfe]
  rfl

/-- A concrete settings document carrying an unknown top-level field, for the
round-trip witness. -/
def c2Settings : PersistedSettings :=
  { version := "1.0"
    providers :=
      { enabled := ["openai"]
        openai := { enabled := true, api_key := some "sk-test", model := none }
        anthropic := { enabled := false, api_key := none, model := none } }
    skills :=
      { bundled_dir := some "/repo/skills/core"
        disabled_bundled := ["web-search"]
        plugins := [{ name := "my-skill", git_url := "https://host/repo.git",
                      branch := "main", enabled := true,
                      installed_path := "/sk/my-skill" }] }
    telemetry := { enabled := true, otlp_endpoint := some "http://custom:4318" }
    memory := { mtype := "mem0", history_limit := some 10 }
    extra := [("future_field", Json.str "kept")] }

/-- Witness for C2 at a concrete document with an unknown field. -/
theorem spec_C2_roundtrip_witness :
    (∀ kv ∈ c2Settings.extra, knownKeys.contains kv.1 = false)
    ∧ load_config (save_config c2Settings) = some c2Settings := by
  have h : ∀ kv ∈ c2Settings.extra, knownKeys.contains kv.1 = false := by
    intro kv hkv
    obtain rfl := List.mem_singleton.mp hkv
    rfl
  exact ⟨h, spec_C2_roundtrip c2Settings h⟩

/-- C3 (code bug): with a configured bundled directory that does not exist on
disk, `list_skills` reports zero bundled skills even though auto-detection
would find one (first conjunct); auto-detection runs only when the configured
path is null (second conjunct).  The disk maps only `/repo/skills/core` (the
auto-detected directory) to a scan result. -/
theorem spec_C3_stale_dir_report :
    list_skills_bundled
        (fun d => if d = "/repo/skills/core" then some ["test-skill"] else none)
        (some "/nonexistent/path/to/skills") "/repo/skills/core" = []
    ∧ list_skills_bundled
        (fun d => if d = "/repo/skills/core" then some ["test-skill"] else none)
        none "/repo/skills/core" = ["test-skill"] :=
  ⟨rfl, rfl⟩

/-- C4: installing over an already-present canonical name updates that entry
in place and appends nothing, and the plugin list never gains two entries
with the same canonical name: the no-duplicates invariant is preserved by a
whole install, a present canonical name leaves the length unchanged, and an
absent one appends exactly one new entry. -/
theorem spec_C4_install_idempotent (g b : String) (entries : List InstalledEntry)
    (plugins : List PluginSkillSource)
    (hn : (plugins.map canonKey).Nodup)
    (hfix : ∀ e ∈ entries, normalize_skill_name e.name_canonical = e.name_canonical) :
    ((install_skill_config g b entries plugins).map canonKey).Nodup
    ∧ (∀ c path, (∃ p ∈ plugins, canonKey p = c) →
        (install_skill_config_step g b c path plugins).length = plugins.length)
    ∧ (∀ c path, (∀ p ∈ plugins, canonKey p ≠ c) →
        install_skill_config_step g b c path plugins
          = plugins ++ [⟨c, g, b, true, path⟩]) :=
  ⟨install_config_nodup g b entries plugins hn hfix,
   fun c path h => step_length_of_mem g b c path plugins h,
   fun c path h => step_append_of_not_mem g b c path plugins h⟩

/-- Witness for C4: re-installing `my-skill` over an existing entry keeps the
canonical names duplicate-free. -/
theorem spec_C4_install_idempotent_witness :
    (([⟨"my-skill", "u", "main", false, "/old"⟩] :
        List PluginSkillSource).map canonKey).Nodup
    ∧ (∀ e ∈ ([⟨"My Skill", "my-skill", "/sk/my-skill"⟩] : List InstalledEntry),
        normalize_skill_name e.name_canonical = e.name_canonical)
    ∧ ((install_skill_config "https://h/r.git" "main"
          [⟨"My Skill", "my-skill", "/sk/my-skill"⟩]
          [⟨"my-skill", "u", "main", false, "/old"⟩]).map canonKey).Nodup := by
  refine ⟨by decide, by decide, ?_⟩
  exact (spec_C4_install_idempotent "https://h/r.git" "main"
    [⟨"My Skill", "my-skill", "/sk/my-skill"⟩]
    [⟨"my-skill", "u", "main", false, "/old"⟩] (by decide) (by decide)).1

/-- C5: raw names with equal canonical forms are the same skill identity for
the operations (lookup by canonical name), and the spec's example pair
canonicalizes to the same name. -/
theorem spec_C5_canonical_identity :
    normalize_skill_name "My Cool_Skill!!" = "my-cool-skill"
    ∧ normalize_skill_name "my-cool-skill" = "my-cool-skill"
    ∧ ∀ r1 r2, normalize_skill_name r1 = normalize_skill_name r2 →
        (∀ w, update_skill r1 w = update_skill r2 w)
        ∧ (∀ kf cf w, remove_skill r1 kf cf w = remove_skill r2 kf cf w)
        ∧ (∀ plugins, findPlugin (normalize_skill_name r1) plugins
            = findPlugin (normalize_skill_name r2) plugins) := by
  refine ⟨by decide, by decide, ?_⟩
  intro r1 r2 h
  refine ⟨?_, ?_, ?_⟩
  · intro w
    simp only [update_skill, h]
  · intro kf cf w
    simp only [remove_skill, h]
  · intro plugins
    rw [h]

/-- Witness for C5 at the spec's example pair. -/
theorem spec_C5_canonical_identity_witness :
    normalize_skill_name "My Cool_Skill!!" = normalize_skill_name "my-cool-skill"
    ∧ update_skill "My Cool_Skill!!" ⟨⟨none, [], []⟩, []⟩
        = update_skill "my-cool-skill" ⟨⟨none, [], []⟩, []⟩ :=
  ⟨by decide,
   (spec_C5_canonical_identity.2.2 "My Cool_Skill!!" "my-cool-skill" (by decide)).1
     ⟨⟨none, [], []⟩, []⟩⟩

/-- C6: updating a name whose canonical form matches no persisted plugin
fails with the skill-not-found error and leaves the whole world (settings
document and managed directories) unchanged. -/
theorem spec_C6_update_missing (name : String) (w : SkillWorld)
    (h : findPlugin (normalize_skill_name name) w.skills.plugins = none) :
    update_skill name w = (w, .skillNotFound, none) := by
  simp only [update_skill, h]

/-- Witness for C6 at `update("missing-skill")` against an empty plugin
list. -/
theorem spec_C6_update_missing_witness :
    findPlugin (normalize_skill_name "missing-skill")
      (⟨⟨none, [], []⟩, []⟩ : SkillWorld).skills.plugins = none
    ∧ update_skill "missing-skill" ⟨⟨none, [], []⟩, []⟩
        = (⟨⟨none, [], []⟩, []⟩, .skillNotFound, none) :=
  ⟨rfl, spec_C6_update_missing "missing-skill" ⟨⟨none, [], []⟩, []⟩ rfl⟩

/-- C7 counterexample: `AgentConfig.from_env` with an empty environment
selects the provider `"openai"` — a configuration-construction path that
selects a supported provider by default, without explicit opt-in. -/
theorem spec_C7_counterexample :
    (AgentConfig.from_env (fun _ => none) "/home/user").llm_provider = "openai"
    ∧ "openai" ∈ supportedProviders :=
  ⟨rfl, by decide⟩

/-- C7 amended: `get_default_config` returns compiled-in defaults with zero
enabled providers (every provider opt-in flag off), but the environment
construction path `AgentConfig.from_env` does select the provider `"openai"`
by default when `LLM_PROVIDER` is unset. -/
theorem spec_C7_amended_defaults :
    get_default_config.providers.enabled = []
    ∧ get_default_config.providers.openai.enabled = false
    ∧ get_default_config.providers.anthropic.enabled = false
    ∧ (AgentConfig.from_env (fun _ => none) "/home/user").llm_provider = "openai" :=
  ⟨rfl, rfl, rfl, rfl⟩

/-- C8 counterexample: disabling a name that is neither a plugin nor in the
bundled set still appends its canonical form to `disabled_bundled`; the
bundled scan of the scenario finds only `other-skill`, and `ghost-skill` is
not among the bundled skills. -/
theorem spec_C8_counterexample :
    (disable_skill "ghost skill" ⟨⟨none, [], []⟩, []⟩).skills.disabled_bundled
      = ["ghost-skill"]
    ∧ list_skills_bundled
        (fun d => if d = "/skills/core" then some ["other-skill"] else none)
        (some "/skills/core") "/skills/core" = ["other-skill"]
    ∧ "ghost-skill" ∉ (["other-skill"] : List String) :=
  ⟨rfl, rfl, by decide⟩

/-- C8 amended: `disable_skill` either leaves `disabled_bundled` unchanged or
appends exactly the canonical form of the requested name, and `enable_skill`
never adds an entry; neither operation consults the bundled skill set, so a
name absent from it can still be recorded. -/
theorem spec_C8_amended_gains (name : String) (w : SkillWorld) :
    ((disable_skill name w).skills.disabled_bundled = w.skills.disabled_bundled
      ∨ (disable_skill name w).skills.disabled_bundled
          = w.skills.disabled_bundled ++ [normalize_skill_name name])
    ∧ ∀ s ∈ (enable_skill name w).skills.disabled_bundled,
        s ∈ w.skills.disabled_bundled := by
  constructor
  · rcases hf : findPlugin (normalize_skill_name name) w.skills.plugins with _ | p
    · simp only [disable_skill, hf]
      split
      · right; rfl
      · left; rfl
    · simp only [disable_skill, hf]
      split
      · left; rfl
      · left; rfl
  · intro s hs
    simp only [enable_skill] at hs
    rcases hf : findPlugin (normalize_skill_name name) w.skills.plugins with _ | p
    · rw [hf] at hs
      simp only at hs
      split at hs
      · exact List.mem_of_mem_filter hs
      · exact hs
    · rw [hf] at hs
      simp only at hs
      split at hs
      · exact hs
      · exact hs

/-- Witness for C8 amended at a concrete world. -/
theorem spec_C8_amended_gains_witness :
    ((disable_skill "web search" ⟨⟨none, ["a-b"], []⟩, []⟩).skills.disabled_bundled
        = (⟨⟨none, ["a-b"], []⟩, []⟩ : SkillWorld).skills.disabled_bundled
      ∨ (disable_skill "web search" ⟨⟨none, ["a-b"], []⟩, []⟩).skills.disabled_bundled
        = (⟨⟨none, ["a-b"], []⟩, []⟩ : SkillWorld).skills.disabled_bundled
            ++ [normalize_skill_name "web search"])
    ∧ ∀ s ∈ (enable_skill "web search" ⟨⟨none, ["a-b"], []⟩, []⟩).skills.disabled_bundled,
        s ∈ (⟨⟨none, ["a-b"], []⟩, []⟩ : SkillWorld).skills.disabled_bundled :=
  spec_C8_amended_gains "web search" ⟨⟨none, ["a-b"], []⟩, []⟩

/-- C9: removing an installed plugin with `keep_files = true` (and the
confirmation answered yes) drops every entry with that canonical name from
the persisted plugin list, saves that document, and leaves the managed
directories untouched. -/
theorem spec_C9_remove_keep_files (name : String) (w : SkillWorld)
    (p : PluginSkillSource)
    (h : findPlugin (normalize_skill_name name) w.skills.plugins = some p) :
    (remove_skill name true true w).1.managedDirs = w.managedDirs
    ∧ (remove_skill name true true w).1.skills.plugins
        = w.skills.plugins.filter (fun q => canonKey q != normalize_skill_name name)
    ∧ (remove_skill name true true w).1.skills.disabled_bundled
        = w.skills.disabled_bundled
    ∧ (remove_skill name true true w).2 = .ok
    ∧ ∀ q ∈ (remove_skill name true true w).1.skills.plugins,
        canonKey q ≠ normalize_skill_name name := by
  have hr : remove_skill name true true w
      = (SkillWorld.mk
          (SkillsConfig.mk w.skills.bundled_dir w.skills.disabled_bundled
            (w.skills.plugins.filter
              (fun q => canonKey q != normalize_skill_name name)))
          w.managedDirs,
         SkillCmdResult.ok) := by
    simp only [remove_skill, h]
    rfl
  rw [hr]
  refine ⟨rfl, rfl, rfl, rfl, ?_⟩
  intro q hq heq
  have h2 := (List.mem_filter.mp hq).2
  rw [heq] at h2
  simp at h2

/-- Witness for C9: removing `x` with `keep_files = true` empties the plugin
list while the managed directory for `x` is still on disk. -/
theorem spec_C9_remove_keep_files_witness :
    findPlugin (normalize_skill_name "x")
      (⟨⟨none, [], [⟨"x", "u", "main", true, "/sk/x"⟩]⟩, ["x"]⟩ :
        SkillWorld).skills.plugins
      = some ⟨"x", "u", "main", true, "/sk/x"⟩
    ∧ (remove_skill "x" true true
        ⟨⟨none, [], [⟨"x", "u", "main", true, "/sk/x"⟩]⟩, ["x"]⟩).1.managedDirs
      = ["x"]
    ∧ (remove_skill "x" true true
        ⟨⟨none, [], [⟨"x", "u", "main", true, "/sk/x"⟩]⟩, ["x"]⟩).1.skills.plugins
      = [] := by
  refine ⟨by decide, ?_, ?_⟩
  · exact (spec_C9_remove_keep_files "x"
      ⟨⟨none, [], [⟨"x", "u", "main", true, "/sk/x"⟩]⟩, ["x"]⟩
      ⟨"x", "u", "main", true, "/sk/x"⟩ (by decide)).1
  · exact ((spec_C9_remove_keep_files "x"
      ⟨⟨none, [], [⟨"x", "u", "main", true, "/sk/x"⟩]⟩, ["x"]⟩
      ⟨"x", "u", "main", true, "/sk/x"⟩ (by decide)).2.1).trans (by decide)

/-- C10: the install loop records entries with `enabled = true`; re-installing
over an existing entry (the first one matching the canonical name) overwrites
its `git_url`, `branch`, `installed_path` and `enabled` fields, re-enabling a
previously disabled plugin. -/
theorem spec_C10_reinstall_enables (g b c path : String)
    (pre post : List PluginSkillSource) (p : PluginSkillSource)
    (hpre : ∀ q ∈ pre, canonKey q ≠ c) (hp : canonKey p = c) :
    install_skill_config_step g b c path (pre ++ p :: post)
      = pre ++ { p with git_url := g, branch := b,
                        installed_path := path, enabled := true } :: post
    ∧ ({ p with git_url := g, branch := b, installed_path := path,
                enabled := true } : PluginSkillSource).enabled = true := by
  constructor
  · induction pre with
    | nil =>
      simp only [List.nil_append]
      rw [install_skill_config_step, if_pos hp]
    | cons q pre2 ih =>
      simp only [List.cons_append]
      rw [install_skill_config_step,
          if_neg (hpre q (List.mem_cons_self q pre2))]
      rw [ih (fun r hr => hpre r (List.mem_cons_of_mem q hr))]
  · rfl

/-- Witness for C10: re-installing over a disabled `my-skill` entry yields an
enabled entry with the new url, branch and path. -/
theorem spec_C10_reinstall_enables_witness :
    canonKey ⟨"my-skill", "old-url", "main", false, "/old"⟩ = "my-skill"
    ∧ install_skill_config_step "new-url" "dev" "my-skill" "/new"
        ([] ++ (⟨"my-skill", "old-url", "main", false, "/old"⟩ :
          PluginSkillSource) :: [])
      = [] ++ (⟨"my-skill", "new-url", "dev", true, "/new"⟩ :
          PluginSkillSource) :: [] :=
  ⟨by decide,
   (spec_C10_reinstall_enables "new-url" "dev" "my-skill" "/new" [] []
      ⟨"my-skill", "old-url", "main", false, "/old"⟩ (by decide) (by decide)).1⟩

end AgentBase
